import Mathlib

/-!
# Verification of the Gutenberg data module and component utilities

Shallow embedding of:

* `src/data/index.js` — the multi-store registry (`registerStore`,
  `registerReducer`, `registerSelectors`, `registerActions`), the
  process-wide listener list (`globalListener`, `subscribe`), `select`,
  `dispatch`, and the `withSelect` higher-order component;
* `src/components/higher-order/if-condition/index.js` — `ifCondition`;
* `src/edit-post/components/preserve-scroll-in-reorder/index.js` —
  the `PreserveScrollInReorder` component and the edit-post store wiring
  (its `subscribe( 'core/viewport', ... )` call).

JavaScript values are modelled either polymorphically (a type `V` with
decidable equality, where Lean equality plays the role of JavaScript
`===`: primitives compare by value, composite values are represented by
their identity) or, where JavaScript truthiness matters, by the concrete
type `JSVal` below.  Module-level mutable state (the `stores`,
`selectors`, `actions` maps and the `listeners` array) is threaded
explicitly through a `Registry` value.  Fallible JavaScript code (paths
that would throw a `TypeError`) returns `Option`/`Except`.
-/

/-- A model of a JavaScript runtime value, used where truthiness or
reference equality of heterogeneous values matters.  Composite values
(objects, arrays, functions) are abstracted by an identity `obj id`;
`===` on them is identity comparison, which matches `DecidableEq`. -/
inductive JSVal where
  | undef : JSVal
  | null : JSVal
  | bool (b : Bool) : JSVal
  | num (n : Int) : JSVal
  | str (s : String) : JSVal
  | obj (id : Nat) : JSVal
deriving DecidableEq, Repr

/-- JavaScript truthiness of a `JSVal` (`undefined`, `null`, `false`,
`0` and the empty string are falsy; every object is truthy). -/
def truthy : JSVal → Bool
  | .undef => false
  | .null => false
  | .bool b => b
  | .num n => n != 0
  | .str s => s != ""
  | .obj _ => true

/-- Lookup in a string-keyed association list, modelling JavaScript
object property access (`map[ key ]`); the most recent binding wins. -/
def alookup {α : Type} : List (String × α) → String → Option α
  | [], _ => none
  | (k, v) :: rest, key => if k = key then some v else alookup rest key

/-- Assignment in a string-keyed association list, modelling JavaScript
property assignment (`map[ key ] = value`). -/
def aset {α : Type} (l : List (String × α)) (k : String) (v : α) :
    List (String × α) :=
  (k, v) :: l.filter (fun p => p.1 != k)

theorem alookup_aset_self {α : Type} (l : List (String × α)) (k : String) (v : α) :
    alookup (aset l k v) k = some v := by
  simp [aset, alookup]

theorem alookup_filter_ne {α : Type} (l : List (String × α)) (k k2 : String)
    (h : k2 ≠ k) : alookup (l.filter (fun p => p.1 != k)) k2 = alookup l k2 := by
  induction l with
  | nil => rfl
  | cons p rest ih =>
    by_cases hp : p.1 = k
    · have h1 : (p.1 != k) = false := by simp [hp]
      have h2 : p.1 ≠ k2 := fun hc => h (hc ▸ hp)
      simp [List.filter_cons, h1, alookup, h2, ih]
    · have h1 : (p.1 != k) = true := by simp [hp]
      simp [List.filter_cons, h1, alookup, ih]

theorem alookup_aset_ne {α : Type} (l : List (String × α)) (k k2 : String)
    (v : α) (h : k2 ≠ k) : alookup (aset l k v) k2 = alookup l k2 := by
  have hk : k ≠ k2 := fun hc => h hc.symm
  simp [aset, alookup, hk, alookup_filter_ne l k k2 h]

section DataModule

variable {V : Type} [DecidableEq V]

/-- A store object, as produced by `registerReducer` from the Redux
`createStore` call: it holds its reducer and its current state.  -/
structure StoreV (V : Type) where
  reducer : V → V → V
  state : V

/-- A raw selector as passed to `registerSelectors`: it receives the
state as first argument, then the extra call arguments. -/
abbrev RawSelector (V : Type) := V → List V → V

/-- A raw action creator as passed to `registerActions`: it receives the
call arguments and produces an action object. -/
abbrev RawAction (V : Type) := List V → V

/-- Identity of an entry of the module-level `listeners` array, used to
model `===` in lodash `without`: a bare listener is the caller's own
function (`inl funcId`, so two subscriptions of the same function push
two identical references), while `when`/`whenWith` wrappers are fresh
closures (`inr token`, allocated from a counter, never equal to any
other value). -/
abbrev SubRef := Sum Nat Nat

/-- The filtering state of one entry of the `listeners` array.  A bare
listener has no filter; `byKey` models the `when`-wrapped listener with
its captured mutable `lastState`; `byKeySel` additionally models the
`whenWith` wrapper with its captured selector name, arguments and
mutable `lastResult`. -/
inductive LFilter (V : Type) where
  | bare : LFilter V
  | byKey (key : String) (lastState : V) : LFilter V
  | byKeySel (key : String) (lastState : V) (selName : String)
      (selArgs : List V) (lastResult : V) : LFilter V
deriving DecidableEq, Repr

/-- One entry of the module-level `listeners` array. -/
structure LEntry (V : Type) where
  ref : SubRef
  filter : LFilter V
deriving DecidableEq, Repr

/-- The module-level mutable state of `src/data/index.js`: the `stores`,
`selectors` and `actions` maps, the `listeners` array, and a counter
allocating fresh identities for wrapper closures.  Selectors are stored
raw; the state binding done by `registerSelectors` is applied at call
time (equivalent, since each key is registered once and the bound
selector reads the captured store's current state). -/
structure Registry (V : Type) where
  stores : List (String × StoreV V)
  selectors : List (String × List (String × RawSelector V))
  actions : List (String × List (String × RawAction V))
  listeners : List (LEntry V)
  nextToken : Nat

/-- The initial module state: all maps empty. -/
def emptyRegistry : Registry V := ⟨[], [], [], [], 0⟩

/-- Current state of the store registered under a key
(`stores[ reducerKey ].getState()`). -/
def stateAt (sts : List (String × StoreV V)) (k : String) : Option V :=
  (alookup sts k).map (fun st => st.state)

/-- The raw selector registered under a key and name. -/
def selAt (sels : List (String × List (String × RawSelector V)))
    (k n : String) : Option (RawSelector V) :=
  (alookup sels k).bind (fun m => alookup m n)

/-- `selectors[ reducerKey ][ selectorName ]( ...args )`: the bound
selector applies the raw selector to the store's current state followed
by the call arguments. -/
def evalSel (sts : List (String × StoreV V))
    (sels : List (String × List (String × RawSelector V)))
    (k n : String) (args : List V) : Option V :=
  match selAt sels k n, stateAt sts k with
  | some f, some s => some (f s args)
  | _, _ => none

/-- `registerReducer( reducerKey, reducer )`: creates a store via the
store library and records it in the `stores` map; the store library
computes the initial state by an internal init dispatch, which we model
by passing the resulting initial state explicitly.  The store's
subscription of `globalListener` is implicit: every dispatch in this
model runs the listener pass. -/
def registerReducer (r : Registry V) (key : String) (reducer : V → V → V)
    (initialState : V) : Registry V × StoreV V :=
  let store : StoreV V := ⟨reducer, initialState⟩
  ({ r with stores := aset r.stores key store }, store)

/-- `registerSelectors( reducerKey, newSelectors )`. -/
def registerSelectors (r : Registry V) (key : String)
    (newSelectors : List (String × RawSelector V)) : Registry V :=
  { r with selectors := aset r.selectors key newSelectors }

/-- `registerActions( reducerKey, newActions )`. -/
def registerActions (r : Registry V) (key : String)
    (newActions : List (String × RawAction V)) : Registry V :=
  { r with actions := aset r.actions key newActions }

/-- The `options` object accepted by `registerStore`.  `reducer` is a
function or absent (`Option`); a present function is always truthy, and
an absent property is falsy, so `! options.reducer` is `reducer.isNone`. -/
structure StoreOptions (V : Type) where
  reducer : Option (V → V → V)
  actions : Option (List (String × RawAction V))
  selectors : Option (List (String × RawSelector V))

/-- `registerStore( reducerKey, options )`.  Throwing the `TypeError`
is modelled by returning `.error` together with the unchanged registry
(the throw happens before any map is written). -/
def registerStore (r : Registry V) (key : String) (opts : StoreOptions V)
    (initialState : V) : Registry V × Except String (StoreV V) :=
  match opts.reducer with
  | none => (r, .error "Must specify store reducer")
  | some red =>
    let p := registerReducer r key red initialState
    let r1 := p.1
    let r2 := match opts.actions with
      | some a => registerActions r1 key a
      | none => r1
    let r3 := match opts.selectors with
      | some s => registerSelectors r2 key s
      | none => r2
    (r3, .ok p.2)

/-- One pass of a single entry of the `listeners` array during
`globalListener`.  Returns the updated entry (its captured `lastState`
and `lastResult` after the pass) and `some arg` when the underlying
listener was invoked (`arg` is its argument: `none` for a plain call,
`some v` when `whenWith` passes the selector result).

The source composes the wrappers as
`whenWith( resultCheck )( when( stateCheck )( listener ) )`, so with a
selector the result check runs first (updating `lastResult` on every
notification) and the state check runs only when the result changed.
A keyed entry whose store or selector is missing would throw in
JavaScript; `subscribe` refuses to create such an entry, so that branch
is unreachable and modelled as a no-op. -/
def stepEntry (sts : List (String × StoreV V))
    (sels : List (String × List (String × RawSelector V))) :
    LEntry V → LEntry V × Option (Option V)
  | ⟨t, .bare⟩ => (⟨t, .bare⟩, some none)
  | ⟨t, .byKey k last⟩ =>
    match stateAt sts k with
    | none => (⟨t, .byKey k last⟩, none)
    | some s =>
      (⟨t, .byKey k s⟩, if s ≠ last then some none else none)
  | ⟨t, .byKeySel k last n args lastRes⟩ =>
    match evalSel sts sels k n args, stateAt sts k with
    | some res, some s =>
      if res ≠ lastRes then
        (⟨t, .byKeySel k s n args res⟩,
          if s ≠ last then some (some res) else none)
      else
        (⟨t, .byKeySel k last n args res⟩, none)
    | _, _ => (⟨t, .byKeySel k last n args lastRes⟩, none)

/-- `globalListener`: `listeners.forEach( listener => listener() )`.
Returns the updated entries and, in order, the invocations of the
underlying listeners (each tagged with the entry's identity and the
argument it was called with). -/
def runListeners (sts : List (String × StoreV V))
    (sels : List (String × List (String × RawSelector V))) :
    List (LEntry V) → List (LEntry V) × List (SubRef × Option V)
  | [] => ([], [])
  | e :: rest =>
    ((stepEntry sts sels e).1 :: (runListeners sts sels rest).1,
      (match (stepEntry sts sels e).2 with
        | some arg => [(e.ref, arg)]
        | none => []) ++ (runListeners sts sels rest).2)

/-- `store.dispatch( action )` on the store registered under `k`: the
store library replaces the state by `reducer( state, action )` and then
notifies its subscribers, i.e. runs `globalListener` once.  Dispatching
to an unregistered key would throw in JavaScript; modelled as a no-op
result with no invocations. -/
def dispatchTo (r : Registry V) (k : String) (a : V) :
    Registry V × List (SubRef × Option V) :=
  match alookup r.stores k with
  | none => (r, [])
  | some st =>
    let sts := aset r.stores k ⟨st.reducer, st.reducer st.state a⟩
    let q := runListeners sts r.selectors r.listeners
    (⟨sts, r.selectors, r.actions, q.1, r.nextToken⟩, q.2)

/-- The `selector` argument of `subscribe`: a selector name or an array
of selector name followed by arguments (`castArray` normalization). -/
inductive SelArg (V : Type) where
  | strName (s : String) : SelArg V
  | arr (name : String) (args : List V) : SelArg V

/-- JavaScript truthiness of the `selector` argument: a string is falsy
exactly when empty; an array is always truthy. -/
def SelArg.isTruthy : SelArg V → Bool
  | .strName s => s != ""
  | .arr _ _ => true

/-- `castArray( selector )` followed by
`[ selName, ...selectorArgs ] = ...`. -/
def SelArg.toPair : SelArg V → String × List V
  | .strName s => (s, [])
  | .arr n a => (n, a)

/-- Push the caller's own listener function (identified by `fid`) on the
`listeners` array. -/
def pushBare (r : Registry V) (fid : Nat) : Registry V × SubRef :=
  ({ r with listeners := r.listeners ++ [⟨Sum.inl fid, .bare⟩] }, Sum.inl fid)

/-- Push a freshly created wrapper closure on the `listeners` array,
allocating its identity from the counter. -/
def pushWrapped (r : Registry V) (f : LFilter V) : Registry V × SubRef :=
  ({ r with
      listeners := r.listeners ++ [⟨Sum.inr r.nextToken, f⟩]
      nextToken := r.nextToken + 1 }, Sum.inr r.nextToken)

/-- `subscribe( reducerKey?, selector?, listener )` (after the source's
argument normalization).  Returns the updated registry and the identity
of the pushed listener (which the returned unsubscribe closure captures),
or `none` where the JavaScript would throw (reading `getState` of an
unregistered store, or calling an unregistered selector).  An empty
string `reducerKey` is falsy, so it takes the unfiltered path; likewise
an empty string `selector` name takes the key-only path. -/
def subscribe (r : Registry V) (reducerKey : Option String)
    (selector : Option (SelArg V)) (fid : Nat) :
    Option (Registry V × SubRef) :=
  match reducerKey with
  | none => some (pushBare r fid)
  | some k =>
    if k = "" then some (pushBare r fid)
    else
      match stateAt r.stores k with
      | none => none
      | some s =>
        match selector with
        | none => some (pushWrapped r (.byKey k s))
        | some sel =>
          if sel.isTruthy then
            match evalSel r.stores r.selectors k (sel.toPair).1 (sel.toPair).2 with
            | none => none
            | some res =>
              some (pushWrapped r (.byKeySel k s (sel.toPair).1 (sel.toPair).2 res))
          else some (pushWrapped r (.byKey k s))

/-- The unsubscribe closure returned by `subscribe`:
`listeners = without( listeners, listener )`.  lodash `without` removes
every element `===` to the given one and otherwise preserves order. -/
def unsubscribe (r : Registry V) (t : SubRef) : Registry V :=
  { r with listeners := r.listeners.filter (fun e => decide (e.ref ≠ t)) }

/-- `select( reducerKey )[ selectorName ]( ...args )`: looks up the
bound selector and applies it.  The pair's second component is the
module state after the call — selector evaluation performs no dispatch,
so it is returned unchanged. -/
def selectDo (r : Registry V) (key selName : String) (args : List V) :
    Option (V × Registry V) :=
  (evalSel r.stores r.selectors key selName args).map (fun v => (v, r))

/-- `dispatch( reducerKey )[ actionName ]( ...args )`: looks up the
bound action creator and dispatches `action( ...args )` to the store
registered under the key; `none` where JavaScript would throw on an
unregistered key or action name. -/
def dispatchCall (r : Registry V) (key actName : String) (args : List V) :
    Option (Registry V × List (SubRef × Option V)) :=
  match (alookup r.actions key).bind (fun m => alookup m actName) with
  | none => none
  | some act => some (dispatchTo r key (act args))

end DataModule

/-! ## Characterization lemmas for the listener pass -/

/-- A `when`-wrapped (key-filtered) entry: on a notification it reads
the store's current state, fires exactly when it differs from the
captured `lastState`, and updates `lastState` to the current state. -/
theorem stepEntry_byKey {V : Type} [DecidableEq V]
    (sts : List (String × StoreV V))
    (sels : List (String × List (String × RawSelector V)))
    (t : SubRef) (k : String) (last s : V) (hs : stateAt sts k = some s) :
    stepEntry sts sels ⟨t, .byKey k last⟩ =
      (⟨t, .byKey k s⟩, if s ≠ last then some none else none) := by
  simp [stepEntry, hs]

/-- A `whenWith`-wrapped (key-and-selector-filtered) entry: on a
notification it evaluates the bound selector, updates `lastResult` to
the new result, and on a result change additionally runs the `when`
state check, firing (with the new result as argument) exactly when the
state also changed. -/
theorem stepEntry_byKeySel {V : Type} [DecidableEq V]
    (sts : List (String × StoreV V))
    (sels : List (String × List (String × RawSelector V)))
    (t : SubRef) (k : String) (last : V) (n : String) (args : List V)
    (lastRes s : V) (f : RawSelector V)
    (hs : stateAt sts k = some s) (hf : selAt sels k n = some f) :
    stepEntry sts sels ⟨t, .byKeySel k last n args lastRes⟩ =
      (if f s args ≠ lastRes then
        (⟨t, .byKeySel k s n args (f s args)⟩,
          if s ≠ last then some (some (f s args)) else none)
      else (⟨t, .byKeySel k last n args (f s args)⟩, none)) := by
  simp [stepEntry, evalSel, hs, hf]

/-- An invocation with identity `t` and argument `arg` occurs during a
listener pass exactly when some entry with that identity fires with
that argument. -/
theorem runListeners_mem_iff {V : Type} [DecidableEq V]
    (sts : List (String × StoreV V))
    (sels : List (String × List (String × RawSelector V)))
    (ls : List (LEntry V)) (t : SubRef) (arg : Option V) :
    (t, arg) ∈ (runListeners sts sels ls).2 ↔
      ∃ e, e ∈ ls ∧ e.ref = t ∧ (stepEntry sts sels e).2 = some arg := by
  induction ls with
  | nil => simp [runListeners]
  | cons e rest ih =>
    cases h : (stepEntry sts sels e).2 with
    | none =>
      simp only [runListeners, h, List.nil_append]
      rw [ih]
      constructor
      · rintro ⟨e2, he2, hr, hstep⟩
        exact ⟨e2, List.mem_cons_of_mem _ he2, hr, hstep⟩
      · rintro ⟨e2, he2, hr, hstep⟩
        rcases List.mem_cons.mp he2 with h2 | h2
        · subst h2; rw [h] at hstep; cases hstep
        · exact ⟨e2, h2, hr, hstep⟩
    | some a =>
      simp only [runListeners, h, List.singleton_append]
      constructor
      · intro hm
        rcases List.mem_cons.mp hm with h2 | h2
        · have hA : t = e.ref := congrArg Prod.fst h2
          have hB : arg = a := congrArg Prod.snd h2
          exact ⟨e, List.mem_cons_self _ _, hA.symm, by rw [h, hB]⟩
        · rcases ih.mp h2 with ⟨e2, he2, hr, hstep⟩
          exact ⟨e2, List.mem_cons_of_mem _ he2, hr, hstep⟩
      · rintro ⟨e2, he2, hr, hstep⟩
        rcases List.mem_cons.mp he2 with h2 | h2
        · subst h2
          rw [h] at hstep
          have hB : a = arg := by injection hstep
          rw [← hr, hB]
          exact List.mem_cons_self _ _
        · exact List.mem_cons_of_mem _ (ih.mpr ⟨e2, h2, hr, hstep⟩)

/-- The listener pass maps each entry to its updated entry. -/
theorem runListeners_fst_mem {V : Type} [DecidableEq V]
    (sts : List (String × StoreV V))
    (sels : List (String × List (String × RawSelector V)))
    (ls : List (LEntry V)) (e : LEntry V) (he : e ∈ ls) :
    (stepEntry sts sels e).1 ∈ (runListeners sts sels ls).1 := by
  induction ls with
  | nil => cases he
  | cons x rest ih =>
    rcases List.mem_cons.mp he with h | h
    · subst h
      exact List.mem_cons_self _ _
    · exact List.mem_cons_of_mem _ (ih h)

/-- Every invocation produced by a dispatch carries the identity of some
entry of the listener list. -/
theorem dispatch_event_ref {V : Type} [DecidableEq V]
    (r : Registry V) (k : String) (a : V) (t : SubRef) (arg : Option V)
    (h : (t, arg) ∈ (dispatchTo r k a).2) :
    ∃ e, e ∈ r.listeners ∧ e.ref = t := by
  cases hd : alookup r.stores k with
  | none => rw [dispatchTo, hd] at h; cases h
  | some st =>
    rw [dispatchTo, hd] at h
    rcases (runListeners_mem_iff _ _ _ _ _).mp h with ⟨e, he, hr, _⟩
    exact ⟨e, he, hr⟩

/-- Subscribing with a non-empty reducer key and no selector captures
`lastState := getState()` at subscription time: the pushed entry's
`lastState` is the store's current state. -/
theorem subscribe_byKey_initial {V : Type} [DecidableEq V]
    (r : Registry V) (k : String) (hk : k ≠ "") (fid : Nat) (st : StoreV V)
    (hstore : alookup r.stores k = some st) :
    subscribe r (some k) none fid =
      some (pushWrapped r (.byKey k st.state)) := by
  simp [subscribe, hk, stateAt, hstore]

/-- Subscribing with a non-empty reducer key and an array-form selector
captures the current state and the current selector result: the pushed
entry's `lastState` is the store's current state and its `lastResult` is
the bound selector applied to it. -/
theorem subscribe_byKeySel_initial {V : Type} [DecidableEq V]
    (r : Registry V) (k : String) (hk : k ≠ "") (n : String) (args : List V)
    (fid : Nat) (st : StoreV V) (f : RawSelector V)
    (hstore : alookup r.stores k = some st)
    (hsel : selAt r.selectors k n = some f) :
    subscribe r (some k) (some (SelArg.arr n args)) fid =
      some (pushWrapped r (.byKeySel k st.state n args (f st.state args))) := by
  simp [subscribe, hk, stateAt, hstore, SelArg.isTruthy, SelArg.toPair,
    evalSel, hsel]

/-! ## Concrete fixtures used by witnesses -/

/-- A reducer over `Nat` states that replaces the state by the action. -/
def natReducer : Nat → Nat → Nat := fun _ a => a

/-- A registry holding one store, registered under `"core/demo"` with
initial state `5`. -/
def fixReg1 : Registry Nat := (registerReducer emptyRegistry "core/demo" natReducer 5).1

/-! ## C3: registerStore throws without a reducer, else returns the
registered store -/

/-- C3: for every reducer key and options object, `registerStore` with
`options.reducer` absent throws the `TypeError` "Must specify store
reducer" and leaves the registry maps unchanged; with a reducer present
it returns the store object that it registered under the key. -/
theorem registerStore_reducer_required {V : Type} [DecidableEq V]
    (r : Registry V) (key : String) (opts : StoreOptions V) (init : V) :
    (opts.reducer = none →
      registerStore r key opts init =
        (r, Except.error "Must specify store reducer")) ∧
    (∀ red, opts.reducer = some red →
      ∃ st, (registerStore r key opts init).2 = Except.ok st ∧
        alookup (registerStore r key opts init).1.stores key = some st) := by
  constructor
  · intro h
    simp [registerStore, h]
  · intro red h
    refine ⟨⟨red, init⟩, ?_, ?_⟩
    · cases ha : opts.actions <;> cases hs : opts.selectors <;>
        simp [registerStore, h, ha, hs, registerReducer, registerActions,
          registerSelectors]
    · cases ha : opts.actions <;> cases hs : opts.selectors <;>
        simp [registerStore, h, ha, hs, registerReducer, registerActions,
          registerSelectors, alookup_aset_self]

/-- Witness for C3 at concrete inputs: the error case on an options
object without a reducer, and the success case on one with a reducer. -/
theorem registerStore_reducer_required_witness :
    (registerStore (emptyRegistry (V := Nat)) "core/demo" ⟨none, none, none⟩ 0 =
      (emptyRegistry, Except.error "Must specify store reducer")) ∧
    (∃ st, (registerStore (emptyRegistry (V := Nat)) "core/demo"
        ⟨some natReducer, none, none⟩ 5).2 = Except.ok st ∧
      alookup (registerStore (emptyRegistry (V := Nat)) "core/demo"
        ⟨some natReducer, none, none⟩ 5).1.stores "core/demo" = some st) :=
  ⟨(registerStore_reducer_required emptyRegistry "core/demo" ⟨none, none, none⟩ 0).1 rfl,
   (registerStore_reducer_required emptyRegistry "core/demo"
      ⟨some natReducer, none, none⟩ 5).2 natReducer rfl⟩

/-! ## C4: select applies the raw selector to the current state -/

/-- C4: with a store registered under `k` and selectors then registered
under it, `select( k )[ n ]( ...args )` returns exactly what the raw
selector returns on the store's current state followed by `args`, and
the call leaves the module state (in particular the store's state)
unchanged. -/
theorem select_applies_raw_selector {V : Type} [DecidableEq V]
    (r : Registry V) (k : String) (st : StoreV V)
    (sels : List (String × RawSelector V)) (n : String) (f : RawSelector V)
    (args : List V)
    (hstore : alookup r.stores k = some st)
    (hf : alookup sels n = some f) :
    selectDo (registerSelectors r k sels) k n args =
      some (f st.state args, registerSelectors r k sels) := by
  simp [selectDo, evalSel, selAt, registerSelectors, alookup_aset_self, hf,
    stateAt, hstore]

/-- Witness for C4: a `"value"` selector returning the state applied at
the `"core/demo"` store with state `5`. -/
theorem select_applies_raw_selector_witness :
    selectDo (registerSelectors fixReg1 "core/demo"
        [("value", fun s _ => s)]) "core/demo" "value" [] =
      some (5, registerSelectors fixReg1 "core/demo" [("value", fun s _ => s)]) :=
  select_applies_raw_selector fixReg1 "core/demo" ⟨natReducer, 5⟩
    [("value", fun s _ => s)] "value" (fun s _ => s) [] rfl rfl

/-! ## C5: dispatch applies the raw action creator and the reducer -/

/-- C5: with a store registered under `k` and actions then registered
under it, `dispatch( k )[ n ]( ...args )` dispatches exactly the action
object produced by the raw action creator on `args`, so the store's next
state is its reducer applied to the current state and that action
object; other stores' states are unchanged. -/
theorem dispatch_applies_action_creator {V : Type} [DecidableEq V]
    (r : Registry V) (k : String) (st : StoreV V)
    (acts : List (String × RawAction V)) (n : String) (act : RawAction V)
    (args : List V)
    (hstore : alookup r.stores k = some st)
    (hact : alookup acts n = some act) :
    ∃ res, dispatchCall (registerActions r k acts) k n args = some res ∧
      stateAt res.1.stores k = some (st.reducer st.state (act args)) ∧
      (∀ k2, k2 ≠ k → stateAt res.1.stores k2 = stateAt r.stores k2) := by
  refine ⟨dispatchTo (registerActions r k acts) k (act args), ?_, ?_, ?_⟩
  · simp [dispatchCall, registerActions, alookup_aset_self, hact]
  · simp [dispatchTo, registerActions, hstore, stateAt, alookup_aset_self]
  · intro k2 hk2
    simp [dispatchTo, registerActions, hstore, stateAt,
      alookup_aset_ne _ _ _ _ hk2]

/-- Witness for C5: a `"set"` action creator taking the new state as its
argument, dispatched on the `"core/demo"` store with state `5`. -/
theorem dispatch_applies_action_creator_witness :
    ∃ res, dispatchCall (registerActions fixReg1 "core/demo"
        [("set", fun args => args.headD 0)]) "core/demo" "set" [7] = some res ∧
      stateAt res.1.stores "core/demo" = some (natReducer 5 (List.headD [7] 0)) ∧
      (∀ k2, k2 ≠ "core/demo" →
        stateAt res.1.stores k2 = stateAt fixReg1.stores k2) :=
  dispatch_applies_action_creator fixReg1 "core/demo" ⟨natReducer, 5⟩
    [("set", fun args => args.headD 0)] "set" (fun args => args.headD 0) [7]
    rfl rfl

/-! ## C1: key-filtered subscription fires exactly on a state change of
that store -/

/-- A registry with one store registered under the empty-string key
(state `0`) and one under `"other"` (state `0`). -/
def cexKeyReg : Registry Nat :=
  (registerReducer (registerReducer emptyRegistry "" natReducer 0).1
    "other" natReducer 0).1

/-- The registry after `subscribe( '', listener )` on `cexKeyReg`: the
empty-string reducer key is falsy, so the source's `if ( reducerKey )`
takes the unfiltered path and pushes the raw listener. -/
def cexC1Reg : Registry Nat :=
  ((subscribe cexKeyReg (some "") none 7).getD (cexKeyReg, Sum.inl 0)).1

/-- Counterexample to C1 as stated: a subscription made via `subscribe`
with reducer key `""` (and no selector), where a store is registered
under that key.  A dispatch to the other store leaves the `""` store's
state unchanged, yet the listener is invoked — because the empty string
is falsy, `subscribe` ignores the key and registers an unfiltered
listener.  This contradicts both the "if and only if" and the "updates
to other stores alone never invoke the listener" parts of the claim. -/
theorem subscribe_empty_key_counterexample :
    subscribe cexKeyReg (some "") none 7 = some (cexC1Reg, Sum.inl 7) ∧
    stateAt (dispatchTo cexC1Reg "other" 1).1.stores "" =
      stateAt cexC1Reg.stores "" ∧
    (Sum.inl 7, (none : Option Nat)) ∈ (dispatchTo cexC1Reg "other" 1).2 := by
  refine ⟨rfl, rfl, ?_⟩
  have h : (dispatchTo cexC1Reg "other" 1).2 =
      [(Sum.inl 7, (none : Option Nat))] := rfl
  rw [h]
  exact List.mem_cons_self _ _

/-- C1 (amended: the reducer key is non-empty; with the empty-string
key, which is falsy, `subscribe` registers an unfiltered listener
instead): for a subscription with non-empty reducer key `k` and no
selector, after any store processes a dispatch, the listener is invoked
if and only if the state held by the store registered under `k` differs
(by reference inequality) from the state observed at the previous
notification (or at subscription time — the captured `lastState`, which
`subscribe_byKey_initial` shows is the state at subscription time and
whose update the last conjunct here maintains at every notification);
updates to other stores alone never invoke the listener. -/
theorem subscribe_byKey_fires_iff_state_changed {V : Type} [DecidableEq V]
    (r : Registry V) (k : String) (hk : k ≠ "")
    (t : SubRef) (last : V) (st : StoreV V)
    (hmem : (⟨t, .byKey k last⟩ : LEntry V) ∈ r.listeners)
    (uniq : ∀ e ∈ r.listeners, e.ref = t → e = (⟨t, .byKey k last⟩ : LEntry V))
    (hstore : alookup r.stores k = some st)
    (hlast : last = st.state)
    (k2 : String) (a : V) :
    ((∃ arg, (t, arg) ∈ (dispatchTo r k2 a).2) ↔
      stateAt (dispatchTo r k2 a).1.stores k ≠ some last) ∧
    (k2 ≠ k → ∀ arg, (t, arg) ∉ (dispatchTo r k2 a).2) ∧
    (∃ s2, stateAt (dispatchTo r k2 a).1.stores k = some s2 ∧
      (⟨t, .byKey k s2⟩ : LEntry V) ∈ (dispatchTo r k2 a).1.listeners) := by
  subst hlast
  by_cases hkk : k2 = k
  · subst hkk
    simp only [dispatchTo, hstore]
    have hs2 : stateAt (aset r.stores k2 ⟨st.reducer, st.reducer st.state a⟩)
        k2 = some (st.reducer st.state a) := by
      simp [stateAt, alookup_aset_self]
    have hstep := stepEntry_byKey
      (aset r.stores k2 ⟨st.reducer, st.reducer st.state a⟩) r.selectors
      t k2 st.state (st.reducer st.state a) hs2
    refine ⟨?_, ?_, ?_⟩
    · constructor
      · rintro ⟨arg, hm⟩
        rcases (runListeners_mem_iff _ _ _ _ _).mp hm with ⟨e, he, hr, hfire⟩
        have he2 := uniq e he hr
        subst he2
        rw [hstep] at hfire
        by_cases hch : st.reducer st.state a ≠ st.state
        · rw [hs2]
          intro hc
          exact hch (Option.some.inj hc)
        · rw [if_neg hch] at hfire
          cases hfire
      · intro hne
        rw [hs2] at hne
        have hch : st.reducer st.state a ≠ st.state := fun hc => hne (by rw [hc])
        refine ⟨none, (runListeners_mem_iff _ _ _ _ _).mpr
          ⟨⟨t, .byKey k2 st.state⟩, hmem, rfl, ?_⟩⟩
        rw [hstep, if_pos hch]
    · intro hne
      exact absurd rfl hne
    · refine ⟨st.reducer st.state a, hs2, ?_⟩
      have := runListeners_fst_mem
        (aset r.stores k2 ⟨st.reducer, st.reducer st.state a⟩) r.selectors
        r.listeners _ hmem
      rw [hstep] at this
      exact this
  · cases hd : alookup r.stores k2 with
    | none =>
      have hE : dispatchTo r k2 a = (r, []) := by rw [dispatchTo, hd]
      rw [hE]
      refine ⟨?_, ?_, ?_⟩
      · simp [stateAt, hstore]
      · intro _ arg h
        cases h
      · exact ⟨st.state, by simp [stateAt, hstore], hmem⟩
    | some std =>
      simp only [dispatchTo, hd]
      have hs2 : stateAt (aset r.stores k2 ⟨std.reducer, std.reducer std.state a⟩)
          k = some st.state := by
        rw [stateAt, alookup_aset_ne _ _ _ _ (fun hc => hkk hc.symm), ← stateAt,
          stateAt, hstore]
        rfl
      have hstep := stepEntry_byKey
        (aset r.stores k2 ⟨std.reducer, std.reducer std.state a⟩) r.selectors
        t k st.state st.state hs2
      rw [if_neg (fun hc : st.state ≠ st.state => hc rfl)] at hstep
      refine ⟨?_, ?_, ?_⟩
      · constructor
        · rintro ⟨arg, hm⟩
          rcases (runListeners_mem_iff _ _ _ _ _).mp hm with ⟨e, he, hr, hfire⟩
          have he2 := uniq e he hr
          subst he2
          rw [hstep] at hfire
          cases hfire
        · intro hne
          rw [hs2] at hne
          exact absurd rfl hne
      · intro _ arg hm
        rcases (runListeners_mem_iff _ _ _ _ _).mp hm with ⟨e, he, hr, hfire⟩
        have he2 := uniq e he hr
        subst he2
        rw [hstep] at hfire
        cases hfire
      · refine ⟨st.state, hs2, ?_⟩
        have := runListeners_fst_mem
          (aset r.stores k2 ⟨std.reducer, std.reducer std.state a⟩) r.selectors
          r.listeners _ hmem
        rw [hstep] at this
        exact this

/-- The registry after `subscribe( 'core/demo', listener )` on
`fixReg1`. -/
def fixRegC1 : Registry Nat :=
  ((subscribe fixReg1 (some "core/demo") none 3).getD
    (fixReg1, Sum.inl 0)).1

/-- Witness for C1 at a concrete instance: a single keyed subscription
on the `"core/demo"` store (state `5`), dispatching the action `9`. -/
theorem subscribe_byKey_fires_iff_state_changed_witness :
    ((∃ arg, (Sum.inr 0, arg) ∈ (dispatchTo fixRegC1 "core/demo" 9).2) ↔
      stateAt (dispatchTo fixRegC1 "core/demo" 9).1.stores "core/demo" ≠
        some 5) ∧
    (("core/demo" : String) ≠ "core/demo" →
      ∀ arg, (Sum.inr 0, arg) ∉ (dispatchTo fixRegC1 "core/demo" 9).2) ∧
    (∃ s2, stateAt (dispatchTo fixRegC1 "core/demo" 9).1.stores "core/demo" =
        some s2 ∧
      (⟨Sum.inr 0, .byKey "core/demo" s2⟩ : LEntry Nat) ∈
        (dispatchTo fixRegC1 "core/demo" 9).1.listeners) := by
  have hl : fixRegC1.listeners =
      [⟨Sum.inr 0, .byKey "core/demo" 5⟩] := rfl
  refine subscribe_byKey_fires_iff_state_changed fixRegC1 "core/demo"
    (by decide) (Sum.inr 0) 5 ⟨natReducer, 5⟩ ?_ ?_ rfl rfl "core/demo" 9
  · rw [hl]
    exact List.mem_cons_self _ _
  · intro e he _
    rw [hl] at he
    exact List.mem_singleton.mp he

/-! ## C2: key-and-selector subscription fires exactly on a state and
result change -/

/-- `cexKeyReg` with a `"value"` selector registered under the
empty-string key. -/
def cexC2Base : Registry Nat :=
  registerSelectors cexKeyReg "" [("value", fun s _ => s)]

/-- The registry after `subscribe( '', [ 'value' ], listener )` on
`cexC2Base`: the empty-string reducer key is falsy, so the selector is
ignored entirely and the raw listener is pushed unfiltered. -/
def cexC2Reg : Registry Nat :=
  ((subscribe cexC2Base (some "") (some (SelArg.arr "value" [])) 8).getD
    (cexC2Base, Sum.inl 0)).1

/-- Counterexample to C2 as stated: a subscription made via `subscribe`
with reducer key `""` and a selector, where a store and the named
selector are registered under that key.  A dispatch to the other store
leaves the `""` store's state and the selector's result unchanged, yet
the listener is invoked — and with no argument rather than the selector
result — because the falsy empty-string key makes `subscribe` push the
raw listener unfiltered. -/
theorem subscribe_selector_empty_key_counterexample :
    subscribe cexC2Base (some "") (some (SelArg.arr "value" [])) 8 =
      some (cexC2Reg, Sum.inl 8) ∧
    stateAt (dispatchTo cexC2Reg "other" 1).1.stores "" =
      stateAt cexC2Reg.stores "" ∧
    evalSel (dispatchTo cexC2Reg "other" 1).1.stores
        (dispatchTo cexC2Reg "other" 1).1.selectors "" "value" [] =
      evalSel cexC2Reg.stores cexC2Reg.selectors "" "value" [] ∧
    (Sum.inl 8, (none : Option Nat)) ∈ (dispatchTo cexC2Reg "other" 1).2 := by
  refine ⟨rfl, rfl, rfl, ?_⟩
  have h : (dispatchTo cexC2Reg "other" 1).2 =
      [(Sum.inl 8, (none : Option Nat))] := rfl
  rw [h]
  exact List.mem_cons_self _ _

/-- C2 (amended: the reducer key is non-empty and the selector is given
in array form or as a non-empty name; a falsy selector argument falls
back to key-only filtering and a falsy key to no filtering): for a
subscription with non-empty reducer key `k` and selector `n` with
arguments `args`, after any store processes a dispatch, the listener is
invoked if and only if the store registered under `k` changed state and
the named selector applied to those arguments returns a result different
(by reference inequality) from the previously observed result
(`lastRes`, which `subscribe_byKeySel_initial` shows is the result
observed at subscription time and which the pass updates at every
notification); when invoked, the listener receives the new selector
result as its argument.  The hypotheses `hresA` and `hresB` are the
invariants maintained by `subscribe` and every notification: the
captured `lastResult` is the selector's result on the store's current
state, and on the captured `lastState`. -/
theorem subscribe_selector_fires_iff_result_changed {V : Type} [DecidableEq V]
    (r : Registry V) (k : String) (hk : k ≠ "")
    (t : SubRef) (last : V) (n : String) (args : List V) (lastRes : V)
    (st : StoreV V) (f : RawSelector V)
    (hmem : (⟨t, .byKeySel k last n args lastRes⟩ : LEntry V) ∈ r.listeners)
    (uniq : ∀ e ∈ r.listeners, e.ref = t →
      e = (⟨t, .byKeySel k last n args lastRes⟩ : LEntry V))
    (hstore : alookup r.stores k = some st)
    (hsel : selAt r.selectors k n = some f)
    (hresA : lastRes = f st.state args)
    (hresB : f last args = lastRes)
    (k2 : String) (a : V) :
    (∀ arg, (t, arg) ∈ (dispatchTo r k2 a).2 →
      arg = evalSel (dispatchTo r k2 a).1.stores
        (dispatchTo r k2 a).1.selectors k n args) ∧
    ((∃ arg, (t, arg) ∈ (dispatchTo r k2 a).2) ↔
      (stateAt (dispatchTo r k2 a).1.stores k ≠ some st.state ∧
        evalSel (dispatchTo r k2 a).1.stores
          (dispatchTo r k2 a).1.selectors k n args ≠ some lastRes)) := by
  by_cases hkk : k2 = k
  · subst hkk
    simp only [dispatchTo, hstore]
    have hs2 : stateAt (aset r.stores k2 ⟨st.reducer, st.reducer st.state a⟩)
        k2 = some (st.reducer st.state a) := by
      simp [stateAt, alookup_aset_self]
    have hev : evalSel (aset r.stores k2 ⟨st.reducer, st.reducer st.state a⟩)
        r.selectors k2 n args = some (f (st.reducer st.state a) args) := by
      rw [evalSel, hsel, hs2]
    have hstep := stepEntry_byKeySel
      (aset r.stores k2 ⟨st.reducer, st.reducer st.state a⟩) r.selectors
      t k2 last n args lastRes (st.reducer st.state a) f hs2 hsel
    constructor
    · intro arg hm
      rcases (runListeners_mem_iff _ _ _ _ _).mp hm with ⟨e, he, hr, hfire⟩
      have he2 := uniq e he hr
      subst he2
      rw [hstep] at hfire
      rw [hev]
      by_cases hres : f (st.reducer st.state a) args ≠ lastRes
      · rw [if_pos hres] at hfire
        by_cases hch : st.reducer st.state a ≠ last
        · rw [if_pos hch] at hfire
          exact (Option.some.inj hfire).symm
        · rw [if_neg hch] at hfire
          cases hfire
      · rw [if_neg hres] at hfire
        cases hfire
    · rw [hs2, hev]
      constructor
      · rintro ⟨arg, hm⟩
        rcases (runListeners_mem_iff _ _ _ _ _).mp hm with ⟨e, he, hr, hfire⟩
        have he2 := uniq e he hr
        subst he2
        rw [hstep] at hfire
        by_cases hres : f (st.reducer st.state a) args ≠ lastRes
        · constructor
          · intro hc
            have hc2 := Option.some.inj hc
            rw [hc2, ← hresA] at hres
            exact hres rfl
          · intro hc
            exact hres (Option.some.inj hc)
        · rw [if_neg hres] at hfire
          cases hfire
      · rintro ⟨hS, hR⟩
        have hres : f (st.reducer st.state a) args ≠ lastRes :=
          fun hc => hR (by rw [hc])
        have hch : st.reducer st.state a ≠ last := by
          intro hc
          rw [hc, hresB] at hres
          exact hres rfl
        refine ⟨some (f (st.reducer st.state a) args),
          (runListeners_mem_iff _ _ _ _ _).mpr
            ⟨⟨t, .byKeySel k2 last n args lastRes⟩, hmem, rfl, ?_⟩⟩
        rw [hstep, if_pos hres, if_pos hch]
  · cases hd : alookup r.stores k2 with
    | none =>
      have hE : dispatchTo r k2 a = (r, []) := by rw [dispatchTo, hd]
      rw [hE]
      constructor
      · intro arg hm
        cases hm
      · constructor
        · rintro ⟨arg, hm⟩
          cases hm
        · rintro ⟨hS, _⟩
          rw [stateAt, hstore] at hS
          exact absurd rfl hS
    | some std =>
      simp only [dispatchTo, hd]
      have hs2 : stateAt (aset r.stores k2
          ⟨std.reducer, std.reducer std.state a⟩) k = some st.state := by
        rw [stateAt, alookup_aset_ne _ _ _ _ (fun hc => hkk hc.symm),
          ← stateAt, stateAt, hstore]
        rfl
      have hev : evalSel (aset r.stores k2
          ⟨std.reducer, std.reducer std.state a⟩) r.selectors k n args =
          some (f st.state args) := by
        rw [evalSel, hsel, hs2]
      have hstep := stepEntry_byKeySel
        (aset r.stores k2 ⟨std.reducer, std.reducer std.state a⟩) r.selectors
        t k last n args lastRes st.state f hs2 hsel
      rw [if_neg (fun hc : f st.state args ≠ lastRes => hc hresA.symm)] at hstep
      constructor
      · intro arg hm
        rcases (runListeners_mem_iff _ _ _ _ _).mp hm with ⟨e, he, hr, hfire⟩
        have he2 := uniq e he hr
        subst he2
        rw [hstep] at hfire
        cases hfire
      · constructor
        · rintro ⟨arg, hm⟩
          rcases (runListeners_mem_iff _ _ _ _ _).mp hm with ⟨e, he, hr, hfire⟩
          have he2 := uniq e he hr
          subst he2
          rw [hstep] at hfire
          cases hfire
        · rintro ⟨hS, _⟩
          rw [hs2] at hS
          exact absurd rfl hS

/-- `fixReg1` with a `"value"` selector registered under
`"core/demo"`. -/
def fixSelReg : Registry Nat :=
  registerSelectors fixReg1 "core/demo" [("value", fun s _ => s)]

/-- The registry after
`subscribe( 'core/demo', [ 'value' ], listener )` on `fixSelReg`. -/
def fixRegC2 : Registry Nat :=
  ((subscribe fixSelReg (some "core/demo") (some (SelArg.arr "value" [])) 3).getD
    (fixSelReg, Sum.inl 0)).1

/-- Witness for C2 at a concrete instance: a keyed and selector-filtered
subscription on the `"core/demo"` store (state `5`, identity selector),
dispatching the action `9`. -/
theorem subscribe_selector_fires_iff_result_changed_witness :
    (∀ arg, (Sum.inr 0, arg) ∈ (dispatchTo fixRegC2 "core/demo" 9).2 →
      arg = evalSel (dispatchTo fixRegC2 "core/demo" 9).1.stores
        (dispatchTo fixRegC2 "core/demo" 9).1.selectors "core/demo" "value" []) ∧
    ((∃ arg, (Sum.inr 0, arg) ∈ (dispatchTo fixRegC2 "core/demo" 9).2) ↔
      (stateAt (dispatchTo fixRegC2 "core/demo" 9).1.stores "core/demo" ≠
        some 5 ∧
      evalSel (dispatchTo fixRegC2 "core/demo" 9).1.stores
        (dispatchTo fixRegC2 "core/demo" 9).1.selectors "core/demo" "value" [] ≠
        some 5)) := by
  have hl : fixRegC2.listeners =
      [⟨Sum.inr 0, .byKeySel "core/demo" 5 "value" [] 5⟩] := rfl
  refine subscribe_selector_fires_iff_result_changed fixRegC2 "core/demo"
    (by decide) (Sum.inr 0) 5 "value" [] 5 ⟨natReducer, 5⟩ (fun s _ => s)
    ?_ ?_ rfl rfl rfl rfl "core/demo" 9
  · rw [hl]
    exact List.mem_cons_self _ _
  · intro e he _
    rw [hl] at he
    exact List.mem_singleton.mp he

/-! ## C9: unsubscribe removes every matching entry and silences the
listener -/

/-- C9: unsubscribing removes from the process-wide listener list every
entry equal (`===`, modelled by `SubRef` identity) to the listener the
subscription added, preserving every other listener and their relative
order (the `filter` characterizations); subscribing the same bare
listener function twice pushes two entries with the same identity, so
one unsubscribe call removes both; and after unsubscribing, no store
update ever invokes that listener again. -/
theorem unsubscribe_removes_all_matching {V : Type} [DecidableEq V]
    (r r1 r2 : Registry V) (fid : Nat) (t1 t2 : SubRef)
    (h1 : subscribe r none none fid = some (r1, t1))
    (h2 : subscribe r1 none none fid = some (r2, t2)) :
    t2 = Sum.inl fid ∧
    (unsubscribe r2 t2).listeners =
      r.listeners.filter (fun e => decide (e.ref ≠ Sum.inl fid)) ∧
    (∀ e ∈ (unsubscribe r2 t2).listeners, e.ref ≠ Sum.inl fid) ∧
    (∀ k a arg, (Sum.inl fid, arg) ∉ (dispatchTo (unsubscribe r2 t2) k a).2) ∧
    (∀ r3 : Registry V, ∀ t : SubRef, (unsubscribe r3 t).listeners =
      r3.listeners.filter (fun e => decide (e.ref ≠ t))) := by
  have h1' : some (pushBare r fid) = some (r1, t1) := by rw [← h1]; rfl
  have h1'' := Option.some.inj h1'
  have hr1 : r1 = (pushBare r fid).1 := by rw [h1'']
  subst hr1
  have h2' : some (pushBare (pushBare r fid).1 fid) = some (r2, t2) := by
    rw [← h2]; rfl
  have h2'' := Option.some.inj h2'
  have hr2 : r2 = (pushBare (pushBare r fid).1 fid).1 := by rw [h2'']
  have ht2 : t2 = Sum.inl fid := (congrArg Prod.snd h2'').symm
  subst hr2
  subst ht2
  have hlist : (unsubscribe (pushBare (pushBare r fid).1 fid).1
      (Sum.inl fid)).listeners =
      r.listeners.filter (fun e => decide (e.ref ≠ Sum.inl fid)) := by
    simp [unsubscribe, pushBare, List.filter_append, List.filter_cons]
  have hclean : ∀ e ∈ (unsubscribe (pushBare (pushBare r fid).1 fid).1
      (Sum.inl fid)).listeners, e.ref ≠ Sum.inl fid := by
    intro e he
    rw [hlist] at he
    exact of_decide_eq_true (List.mem_filter.mp he).2
  refine ⟨rfl, hlist, hclean, ?_, fun r3 t => rfl⟩
  intro k a arg hm
  rcases dispatch_event_ref _ _ _ _ _ hm with ⟨e, he, hr⟩
  exact hclean e he hr

/-- Witness for C9: the same bare listener function (identity `4`)
subscribed twice on `fixReg1`; one unsubscribe call removes both
entries and silences the listener for a subsequent dispatch. -/
theorem unsubscribe_removes_all_matching_witness :
    (Sum.inl 4 : SubRef) = Sum.inl 4 ∧
    (unsubscribe (pushBare (pushBare fixReg1 4).1 4).1
        (Sum.inl 4)).listeners =
      fixReg1.listeners.filter (fun e => decide (e.ref ≠ Sum.inl 4)) ∧
    (∀ e ∈ (unsubscribe (pushBare (pushBare fixReg1 4).1 4).1
        (Sum.inl 4)).listeners, e.ref ≠ Sum.inl 4) ∧
    (∀ k a arg, (Sum.inl 4, arg) ∉
      (dispatchTo (unsubscribe (pushBare (pushBare fixReg1 4).1 4).1
        (Sum.inl 4)) k a).2) ∧
    (∀ r3 : Registry Nat, ∀ t : SubRef, (unsubscribe r3 t).listeners =
      r3.listeners.filter (fun e => decide (e.ref ≠ t))) :=
  unsubscribe_removes_all_matching fixReg1 (pushBare fixReg1 4).1
    (pushBare (pushBare fixReg1 4).1 4).1 4 (Sum.inl 4) (Sum.inl 4) rfl rfl

/-! ## C6: withSelect recomputes and updates state only on shallow
changes -/

/-- A JavaScript plain object as used for props and component state:
string keys to values (keys are unique in a JavaScript object; lookups
see the most recent binding). -/
abbrev Obj (V : Type) := List (String × V)

/-- `is-primitive`, as used by the `is-equal-shallow` dependency:
`null`, `undefined`, booleans, numbers and strings are primitive;
objects, arrays and functions (here: any `obj` identity) are not. -/
def JSVal.isPrimitive : JSVal → Bool
  | .obj _ => false
  | _ => true

/-- The npm `is-equal-shallow` check used by `withSelect`, for object
arguments (the package's leading guards only concern falsy non-object
arguments, which never reach this call site): for every key of `b`, the
value `b[ key ]` must be primitive, `a` must have the key, and the
values must be `===`-equal — the loop returns false otherwise
(`!isPrimitive( b[ key ] ) || !a.hasOwnProperty( key ) ||
a[ key ] !== b[ key ]`) — and finally the two objects must have the
same number of keys.  In particular, two objects binding the same key
to the same composite value (object, array, function) are never
shallow-equal. -/
def isEqualShallow (a b : Obj JSVal) : Bool :=
  (b.all fun p => p.2.isPrimitive && decide (alookup a p.1 = some p.2)) &&
  a.length == b.length

/-- React `setState( newState )` merging: the new bindings override,
other existing bindings are kept. -/
def objMerge {V : Type} (a b : Obj V) : Obj V :=
  a.filter (fun p => (alookup b p.1).isNone) ++ b

/-- The instance state of a `ComponentWithSelect` created by
`withSelect( mapStateToProps )`: its current props and its React state
(the merged state-derived props, initially `{}`). -/
structure CWS where
  props : Obj JSVal
  compState : Obj JSVal
deriving DecidableEq, Repr

/-- `runSelection( props = this.props )`: computes
`mapStateToProps( select, props )` and calls `setState` (a merge, which
schedules a re-render) only when the result is not
`isEqualShallow`-equal to the current state.  Returns the component and
whether `setState` was called.  The `select` argument is the module's
`select` function; the mapping is modelled as a function of the props
at the current registry snapshot. -/
def runSelection (mapStateToProps : Obj JSVal → Obj JSVal) (c : CWS)
    (props : Option (Obj JSVal)) : CWS × Bool :=
  if isEqualShallow (mapStateToProps (props.getD c.props)) c.compState then
    (c, false)
  else
    ({ c with compState := objMerge c.compState (mapStateToProps (props.getD c.props)) }, true)

/-- `componentWillReceiveProps( nextProps )`: re-runs the selection with
the incoming props only when they are not `isEqualShallow`-equal to the
current props.  (React commits the new props afterwards in either case;
the claim concerns the state updates, which this models.)  Returns the
component and whether `setState` was called. -/
def componentWillReceiveProps (mapStateToProps : Obj JSVal → Obj JSVal)
    (c : CWS) (next : Obj JSVal) : CWS × Bool :=
  if isEqualShallow next c.props then (c, false)
  else runSelection mapStateToProps c (some next)

/-- Counterexample to C6 as stated: the newly computed object is
literally the object held in the component state — the same single key
`"list"` bound to the same reference (`obj 5`), so it is shallow-equal
to the held state under any key-wise `===` reading (the second conjunct
states the two objects are equal outright) — yet `setState` is called
and a redundant re-render scheduled (the first conjunct), because the
`is-equal-shallow` dependency treats the non-primitive value as never
equal.  So "when the computed object is shallow-equal, the component's
state is left unchanged (no redundant re-render is triggered)" fails
whenever the state-derived props hold an object, array or function. -/
theorem withSelect_object_prop_rerenders_counterexample :
    (runSelection (fun _ => [("list", JSVal.obj 5)])
        ⟨[], [("list", JSVal.obj 5)]⟩ none).2 = true ∧
    ([("list", JSVal.obj 5)] : Obj JSVal) =
      (⟨[], [("list", JSVal.obj 5)]⟩ : CWS).compState :=
  ⟨rfl, rfl⟩

/-- C6 (amended: "shallow-equal" is the check of the `is-equal-shallow`
dependency the wrapper uses, which additionally requires every compared
value to be primitive — so a computed object holding an object, array
or function value is never shallow-equal to the held state and is
re-set, with a redundant re-render, on every update): on each store
update (`runSelection`, the subscribed listener) and on each receipt of
new props not `is-equal-shallow`-equal to the current props
(`componentWillReceiveProps`), the wrapper recomputes `mapStateToProps`
and merges the computed object into its state (scheduling a re-render)
exactly when it is not `is-equal-shallow`-equal to the currently held
one; when it is — and likewise when incoming props are
`is-equal-shallow`-equal to the current ones — the component state is
left completely unchanged and no re-render is scheduled. -/
theorem withSelect_updates_only_on_shallow_change
    (mapStateToProps : Obj JSVal → Obj JSVal) (c : CWS)
    (p : Option (Obj JSVal)) (next : Obj JSVal) :
    (isEqualShallow (mapStateToProps (p.getD c.props)) c.compState = true →
      runSelection mapStateToProps c p = (c, false)) ∧
    (isEqualShallow (mapStateToProps (p.getD c.props)) c.compState = false →
      runSelection mapStateToProps c p =
        ({ c with compState := objMerge c.compState (mapStateToProps (p.getD c.props)) }, true)) ∧
    (isEqualShallow next c.props = true →
      componentWillReceiveProps mapStateToProps c next = (c, false)) ∧
    (isEqualShallow next c.props = false →
      componentWillReceiveProps mapStateToProps c next =
        runSelection mapStateToProps c (some next)) := by
  refine ⟨?_, ?_, ?_, ?_⟩ <;> intro h <;>
    simp [runSelection, componentWillReceiveProps, h]

/-- Witness for C6: a mapping returning the primitive-valued `x = 1` on
a component with empty state (not shallow-equal, so the state is merged
and a re-render scheduled), and incoming props shallow-equal to the
current ones (state untouched, no re-render). -/
theorem withSelect_updates_only_on_shallow_change_witness :
    (runSelection (fun _ => [("x", JSVal.num 1)])
        (⟨[("a", JSVal.num 0)], []⟩ : CWS) none =
      (⟨[("a", JSVal.num 0)], objMerge [] [("x", JSVal.num 1)]⟩, true)) ∧
    (componentWillReceiveProps (fun _ => [("x", JSVal.num 1)])
        (⟨[("a", JSVal.num 0)], []⟩ : CWS) [("a", JSVal.num 0)] =
      (⟨[("a", JSVal.num 0)], []⟩, false)) :=
  ⟨(withSelect_updates_only_on_shallow_change (fun _ => [("x", JSVal.num 1)])
      ⟨[("a", JSVal.num 0)], []⟩ none [("a", JSVal.num 0)]).2.1 (by decide),
   (withSelect_updates_only_on_shallow_change (fun _ => [("x", JSVal.num 1)])
      ⟨[("a", JSVal.num 0)], []⟩ none [("a", JSVal.num 0)]).2.2.1 (by decide)⟩

/-! ## C10: ifCondition renders null on a falsy predicate, or always
renders with the prop bound -/

/-- The result of rendering the component created by `ifCondition`. -/
inductive Render where
  | nullRender : Render
  | wrapped (props : Obj JSVal) : Render
deriving DecidableEq, Repr

/-- Whether a render result shows the wrapped component. -/
def Render.shows : Render → Bool
  | .nullRender => false
  | .wrapped _ => true

/-- Truthiness of the optional `propName` argument of `ifCondition`:
absent, and the empty string, are falsy. -/
def nameTruthy : Option String → Bool
  | none => false
  | some s => s != ""

/-- `ifCondition( predicate, propName )( WrappedComponent )` applied to
`props` (from `src/components/higher-order/if-condition/index.js`):
computes `isOk = predicate( props )`; returns null when both `propName`
and `isOk` are falsy; otherwise renders the wrapped component, with
`props` extended by `propName` bound to `isOk` when `propName` is
truthy, and with the original props when it is not. -/
def ifCondition (predicate : Obj JSVal → JSVal) (propName : Option String)
    (props : Obj JSVal) : Render :=
  if !nameTruthy propName && !truthy (predicate props) then .nullRender
  else if nameTruthy propName then
    .wrapped (aset props (propName.getD "") (predicate props))
  else .wrapped props

/-- Counterexample to C10 as stated: with the empty string as the prop
name (a valid JavaScript property name) and a falsy predicate result,
the wrapped component is not rendered at all — `''` is falsy, so the
source's `if ( ! propName && ! isOk )` returns null — contradicting
"the wrapped component is always rendered" for every provided prop
name. -/
theorem ifCondition_empty_propname_counterexample :
    Render.shows (ifCondition (fun _ => JSVal.bool false) (some "") []) =
      false := rfl

/-- C10 (amended: a provided prop name must be non-empty; the empty
string is falsy and behaves exactly as if no prop name were given):
without a prop name the wrapper renders null exactly when the
predicate's result is falsy and otherwise renders the wrapped component
with the original props unchanged; with a non-empty prop name the
wrapped component is always rendered, with the original props plus the
prop name bound to the predicate's result. -/
theorem ifCondition_renders (predicate : Obj JSVal → JSVal)
    (props : Obj JSVal) (name : String) (hname : name ≠ "") :
    (truthy (predicate props) = false →
      ifCondition predicate none props = Render.nullRender) ∧
    (truthy (predicate props) = true →
      ifCondition predicate none props = Render.wrapped props) ∧
    ifCondition predicate (some name) props =
      Render.wrapped (aset props name (predicate props)) := by
  refine ⟨?_, ?_, ?_⟩
  · intro h
    simp [ifCondition, nameTruthy, h]
  · intro h
    simp [ifCondition, nameTruthy, h]
  · have h1 : nameTruthy (some name) = true := by simp [nameTruthy, hname]
    simp [ifCondition, h1]

/-- Witness for C10 at concrete inputs: a predicate reading the `"n"`
prop, with prop name `"isEven"`, and without a prop name on falsy and
truthy results. -/
theorem ifCondition_renders_witness :
    (truthy ((fun o => JSVal.bool (alookup o "n" = some (JSVal.num 2)))
        [("n", JSVal.num 3)]) = false →
      ifCondition (fun o => JSVal.bool (alookup o "n" = some (JSVal.num 2)))
        none [("n", JSVal.num 3)] = Render.nullRender) ∧
    (truthy ((fun o => JSVal.bool (alookup o "n" = some (JSVal.num 2)))
        [("n", JSVal.num 3)]) = true →
      ifCondition (fun o => JSVal.bool (alookup o "n" = some (JSVal.num 2)))
        none [("n", JSVal.num 3)] = Render.wrapped [("n", JSVal.num 3)]) ∧
    ifCondition (fun o => JSVal.bool (alookup o "n" = some (JSVal.num 2)))
      (some "isEven") [("n", JSVal.num 3)] =
      Render.wrapped (aset [("n", JSVal.num 3)] "isEven"
        ((fun o => JSVal.bool (alookup o "n" = some (JSVal.num 2)))
          [("n", JSVal.num 3)])) :=
  ifCondition_renders (fun o => JSVal.bool (alookup o "n" = some (JSVal.num 2)))
    [("n", JSVal.num 3)] "isEven" (by decide)

/-! ## C8: PreserveScrollInReorder and the falsy zero offset -/

/-- The props of `PreserveScrollInReorder` (injected by the `query`
wrapper): the block order array, compared by reference (`!==`), and the
selection start UID, which is truthiness-tested. -/
structure PSProps where
  blockOrder : JSVal
  selectionStart : JSVal
deriving DecidableEq, Repr

/-- A `PreserveScrollInReorder` instance: its props and the
`previousOffset` instance property (absent, or the recorded number). -/
structure PSComp where
  props : PSProps
  previousOffset : Option Int
deriving DecidableEq, Repr

/-- JavaScript truthiness of the `previousOffset` instance property:
absent (`undefined`) is falsy — and so is the number `0`. -/
def offsetTruthy : Option Int → Bool
  | none => false
  | some n => n != 0

/-- `setPreviousOffset( selectionStart )`: records the selected block's
top offset (`getBlockDOMNode( uid ).getBoundingClientRect().top`,
modelled by the measurement function `domTop`) when the block's DOM
node exists. -/
def setPreviousOffset (c : PSComp) (domTop : JSVal → Option Int)
    (selectionStart : JSVal) : PSComp :=
  match domTop selectionStart with
  | none => c
  | some top => { c with previousOffset := some top }

/-- `componentWillUpdate( nextProps )`: when the block order changed (by
reference) and a selection start is present, record the selected
block's top offset before the update. -/
def componentWillUpdate (c : PSComp) (domTop : JSVal → Option Int)
    (next : PSProps) : PSComp :=
  if next.blockOrder ≠ c.props.blockOrder ∧ truthy next.selectionStart then
    setPreviousOffset c domTop next.selectionStart
  else c

/-- The DOM environment after the update: whether
`getScrollContainer( node )` finds a scroll container, its current
`scrollTop`, and the measurement of block top offsets after the
reorder. -/
structure ScrollEnv where
  hasContainer : Bool
  scrollTop : Int
  domTopAfter : JSVal → Option Int

/-- `restorePreviousOffset()`: when the scroll container and the block
node exist, sets
`scrollTop = scrollTop + newTop - previousOffset`; always deletes
`previousOffset`.  Returns the component and the scroll container's
`scrollTop` after the call. -/
def restorePreviousOffset (c : PSComp) (env : ScrollEnv) : PSComp × Int :=
  ({ c with previousOffset := none },
    match env.hasContainer, env.domTopAfter c.props.selectionStart,
        c.previousOffset with
    | true, some top, some prev => env.scrollTop + top - prev
    | _, _, _ => env.scrollTop)

/-- `componentDidUpdate()`: `if ( this.previousOffset ) { restore }` —
the restore runs only when the recorded offset is truthy. -/
def componentDidUpdate (c : PSComp) (env : ScrollEnv) : PSComp × Int :=
  if offsetTruthy c.previousOffset then restorePreviousOffset c env
  else (c, env.scrollTop)

/-- One full React update of `PreserveScrollInReorder` with new props:
`componentWillUpdate`, the props commit, then `componentDidUpdate`.
Returns the component and the scroll container's resulting
`scrollTop`. -/
def psUpdate (c : PSComp) (next : PSProps) (domTopBefore : JSVal → Option Int)
    (env : ScrollEnv) : PSComp × Int :=
  componentDidUpdate
    { componentWillUpdate c domTopBefore next with props := next } env

/-- C8 evaluated at the failing input (the code bug): the block order
changes, a selection start is present, the selected block's node exists
with top offset `0` before the reorder and `50` after, and a scroll
container with `scrollTop = 10` exists.  The component records offset
`0`, but `componentDidUpdate`'s `if ( this.previousOffset )` treats the
falsy `0` as "no recorded offset" and skips the restore, so `scrollTop`
stays `10` instead of becoming `10 + 50 - 0` as the claim (and the
component's own documentation, "preserves offset of selected block…")
requires.  The final conjunct shows the restore does run for a
non-zero recorded offset (`20`), confirming `0` is the anomaly. -/
theorem preserveScroll_zero_offset_bug :
    (psUpdate ⟨⟨.obj 1, .str "block"⟩, none⟩ ⟨.obj 2, .str "block"⟩
      (fun _ => some 0) ⟨true, 10, fun _ => some 50⟩).2 = 10 ∧
    (10 : Int) ≠ 10 + 50 - 0 ∧
    (psUpdate ⟨⟨.obj 1, .str "block"⟩, none⟩ ⟨.obj 2, .str "block"⟩
      (fun _ => some 20) ⟨true, 10, fun _ => some 50⟩).2 = 10 + 50 - 20 := by
  refine ⟨rfl, by decide, rfl⟩

/-! ## C7: the edit-post wiring collapses the sidebar when the viewport
shrinks below medium -/

/-- With at most one entry of identity `t` in the list, the first (and
only) invocation with that identity during a pass is exactly that
entry's firing. -/
theorem runListeners_find_unique {V : Type} [DecidableEq V]
    (sts : List (String × StoreV V))
    (sels : List (String × List (String × RawSelector V)))
    (ls : List (LEntry V)) (t : SubRef) (e : LEntry V)
    (he : e ∈ ls) (hr : e.ref = t)
    (uniq : ∀ e2 ∈ ls, e2.ref = t → e2 = e) :
    ((runListeners sts sels ls).2).find? (fun ev => decide (ev.1 = t)) =
      ((stepEntry sts sels e).2).map (fun arg => (t, arg)) := by
  induction ls with
  | nil => cases he
  | cons x rest ih =>
    by_cases hx : x.ref = t
    · have hxe : x = e := uniq x (List.mem_cons_self _ _) hx
      subst hxe
      cases h : (stepEntry sts sels x).2 with
      | some a =>
        simp only [runListeners, h, List.singleton_append]
        rw [List.find?_cons_of_pos _ (by simp [hx])]
        simp [hx]
      | none =>
        simp only [runListeners, h, List.nil_append]
        rw [List.find?_eq_none.mpr]
        · rfl
        · rintro ⟨t2, arg⟩ hev hp
          have ht2 : t2 = t := of_decide_eq_true hp
          subst ht2
          rcases (runListeners_mem_iff sts sels rest t2 arg).mp hev with
            ⟨e2, he2, hr2, hstep2⟩
          have he3 : e2 = x := uniq e2 (List.mem_cons_of_mem _ he2) hr2
          subst he3
          rw [h] at hstep2
          cases hstep2
    · have he2 : e ∈ rest := by
        rcases List.mem_cons.mp he with h1 | h1
        · subst h1
          exact absurd hr hx
        · exact h1
      have uniq2 : ∀ e2 ∈ rest, e2.ref = t → e2 = e :=
        fun e2 hm hrr => uniq e2 (List.mem_cons_of_mem _ hm) hrr
      cases h : (stepEntry sts sels x).2 with
      | some a =>
        simp only [runListeners, h, List.singleton_append]
        rw [List.find?_cons_of_neg _ (by simp [hx])]
        exact ih he2 uniq2
      | none =>
        simp only [runListeners, h, List.nil_append]
        exact ih he2 uniq2

/-- After a dispatch, the dispatched store's state is its reducer
applied to its previous state and the action. -/
theorem dispatchTo_stateAt_self {V : Type} [DecidableEq V]
    (r : Registry V) (k : String) (a : V) (st : StoreV V)
    (h : alookup r.stores k = some st) :
    stateAt (dispatchTo r k a).1.stores k = some (st.reducer st.state a) := by
  simp only [dispatchTo, h]
  simp [stateAt, alookup_aset_self]

/-- The body of the listener in the edit-post store wiring:
`( isSmall ) => { if ( isSmall ) dispatch( 'core/edit-post' ).closeGeneralSidebar(); }`
(a missing action would throw in JavaScript; the wiring registers it, so
that branch is unreachable and modelled as a no-op). -/
def viewportChangeHandler (r : Registry JSVal) (isSmall : JSVal) :
    Registry JSVal :=
  if truthy isSmall then
    match dispatchCall r "core/edit-post" "closeGeneralSidebar" [] with
    | some p => p.1
    | none => r
  else r

/-- The edit-post store wiring from the module body of
`src/edit-post/store/index.js`:
`registerStore( 'core/edit-post', { reducer, actions, selectors } )`
followed by
`subscribe( 'core/viewport', [ 'isViewportMatch', '< medium' ], ... )`.
The `loadAndPersist` call between the two (from the persist module)
only rehydrates the edit-post store and attaches a store-level
persistence subscriber; it does not touch the global listener list, so
it is not modelled here. -/
def editPostModule (r : Registry JSVal) (opts : StoreOptions JSVal)
    (initialState : JSVal) : Option (Registry JSVal × SubRef) :=
  subscribe (registerStore r "core/edit-post" opts initialState).1
    (some "core/viewport")
    (some (SelArg.arr "isViewportMatch" [JSVal.str "< medium"])) 0

/-- One viewport update followed by the wiring listener's reaction: the
dispatch to `'core/viewport'`, then, if the subscription with identity
`t` fired, its callback applied to the selector result it was passed. -/
def wiringStep (r : Registry JSVal) (t : SubRef) (a : JSVal) :
    Registry JSVal :=
  match ((dispatchTo r "core/viewport" a).2).find?
      (fun ev => decide (ev.1 = t)) with
  | some (_, some v) => viewportChangeHandler (dispatchTo r "core/viewport" a).1 v
  | _ => (dispatchTo r "core/viewport" a).1

/-- Core of C7, for any registry holding the wiring subscription: after
a dispatch to `'core/viewport'`, the edit-post store's state is its
reducer applied to the `closeGeneralSidebar` action exactly when the
`isViewportMatch( '< medium' )` result changed and the new result is
truthy; otherwise (result unchanged, or changed to falsy) it is
untouched. -/
theorem wiringStep_closes_sidebar (r1 : Registry JSVal) (tok : Nat)
    (red : JSVal → JSVal → JSVal) (init : JSVal)
    (acts : List (String × RawAction JSVal)) (act : RawAction JSVal)
    (stVP : StoreV JSVal) (f : RawSelector JSVal)
    (hvp1 : alookup r1.stores "core/viewport" = some stVP)
    (hsel1 : selAt r1.selectors "core/viewport" "isViewportMatch" = some f)
    (hep1 : alookup r1.stores "core/edit-post" = some ⟨red, init⟩)
    (hact1 : alookup r1.actions "core/edit-post" = some acts)
    (hcga : alookup acts "closeGeneralSidebar" = some act)
    (hmem : (⟨Sum.inr tok, .byKeySel "core/viewport" stVP.state
        "isViewportMatch" [JSVal.str "< medium"]
        (f stVP.state [JSVal.str "< medium"])⟩ : LEntry JSVal) ∈ r1.listeners)
    (uniq : ∀ e ∈ r1.listeners, e.ref = Sum.inr tok →
      e = (⟨Sum.inr tok, .byKeySel "core/viewport" stVP.state
        "isViewportMatch" [JSVal.str "< medium"]
        (f stVP.state [JSVal.str "< medium"])⟩ : LEntry JSVal))
    (a : JSVal) :
    stateAt (wiringStep r1 (Sum.inr tok) a).stores "core/edit-post" =
      some (if f (stVP.reducer stVP.state a) [JSVal.str "< medium"] ≠
              f stVP.state [JSVal.str "< medium"] ∧
            truthy (f (stVP.reducer stVP.state a) [JSVal.str "< medium"]) = true
          then red init (act []) else init) := by
  have hneEP : ("core/edit-post" : String) ≠ "core/viewport" := by decide
  have hS2 : stateAt (aset r1.stores "core/viewport"
      ⟨stVP.reducer, stVP.reducer stVP.state a⟩) "core/viewport" =
      some (stVP.reducer stVP.state a) := by
    simp [stateAt, alookup_aset_self]
  have hstep := stepEntry_byKeySel
    (aset r1.stores "core/viewport" ⟨stVP.reducer, stVP.reducer stVP.state a⟩)
    r1.selectors (Sum.inr tok) "core/viewport" stVP.state "isViewportMatch"
    [JSVal.str "< medium"] (f stVP.state [JSVal.str "< medium"])
    (stVP.reducer stVP.state a) f hS2 hsel1
  have hfind := runListeners_find_unique
    (aset r1.stores "core/viewport" ⟨stVP.reducer, stVP.reducer stVP.state a⟩)
    r1.selectors r1.listeners (Sum.inr tok) _ hmem rfl uniq
  have hepA : alookup (dispatchTo r1 "core/viewport" a).1.stores
      "core/edit-post" = some ⟨red, init⟩ := by
    simp only [dispatchTo, hvp1]
    rw [alookup_aset_ne _ _ _ _ hneEP]
    exact hep1
  have hactA : alookup (dispatchTo r1 "core/viewport" a).1.actions
      "core/edit-post" = some acts := by
    simp only [dispatchTo, hvp1]
    exact hact1
  by_cases hres : f (stVP.reducer stVP.state a) [JSVal.str "< medium"] ≠
      f stVP.state [JSVal.str "< medium"]
  · have hch : stVP.reducer stVP.state a ≠ stVP.state := by
      intro hc
      rw [hc] at hres
      exact hres rfl
    have hsc : ((dispatchTo r1 "core/viewport" a).2).find?
        (fun ev => decide (ev.1 = Sum.inr tok)) =
        some (Sum.inr tok,
          some (f (stVP.reducer stVP.state a) [JSVal.str "< medium"])) := by
      simp only [dispatchTo, hvp1]
      simp only [dispatchTo, hvp1] at hfind
      rw [hfind, hstep, if_pos hres, if_pos hch]
      rfl
    have hw : wiringStep r1 (Sum.inr tok) a =
        viewportChangeHandler (dispatchTo r1 "core/viewport" a).1
          (f (stVP.reducer stVP.state a) [JSVal.str "< medium"]) := by
      rw [wiringStep, hsc]
    rw [hw]
    by_cases htr : truthy (f (stVP.reducer stVP.state a)
        [JSVal.str "< medium"]) = true
    · rw [if_pos ⟨hres, htr⟩]
      have hdc : dispatchCall (dispatchTo r1 "core/viewport" a).1
          "core/edit-post" "closeGeneralSidebar" [] =
          some (dispatchTo (dispatchTo r1 "core/viewport" a).1
            "core/edit-post" (act [])) := by
        rw [dispatchCall]
        rw [hactA]
        simp only [Option.bind, hcga]
      rw [viewportChangeHandler, if_pos htr, hdc]
      exact dispatchTo_stateAt_self (dispatchTo r1 "core/viewport" a).1
        "core/edit-post" (act []) ⟨red, init⟩ hepA
    · rw [if_neg (fun hc => htr hc.2), viewportChangeHandler, if_neg htr]
      rw [stateAt, hepA]
      rfl
  · have hsc : ((dispatchTo r1 "core/viewport" a).2).find?
        (fun ev => decide (ev.1 = Sum.inr tok)) = none := by
      simp only [dispatchTo, hvp1]
      simp only [dispatchTo, hvp1] at hfind
      rw [hfind, hstep, if_neg hres]
      rfl
    have hw : wiringStep r1 (Sum.inr tok) a =
        (dispatchTo r1 "core/viewport" a).1 := by
      rw [wiringStep, hsc]
    rw [hw, if_neg (fun hc => hres hc.1)]
    rw [stateAt, hepA]
    rfl

/-- C7: the edit-post store wiring subscribes to the `'core/viewport'`
store filtered by the selector `isViewportMatch( '< medium' )`, and on a
viewport update it dispatches `closeGeneralSidebar` on the
`'core/edit-post'` store exactly when the selector's result changed and
the new result is truthy (viewport shrank below medium); when the
result does not change, or changes to falsy, no action is dispatched
and the edit-post state is untouched.  The edit-post reducer, actions
and selectors modules and the viewport store are not among the sources,
so they are universally quantified. -/
theorem editPost_wiring_closes_sidebar
    (r : Registry JSVal) (opts : StoreOptions JSVal) (init : JSVal)
    (red : JSVal → JSVal → JSVal) (acts : List (String × RawAction JSVal))
    (act : RawAction JSVal) (stVP : StoreV JSVal) (f : RawSelector JSVal)
    (hred : opts.reducer = some red)
    (hacts : opts.actions = some acts)
    (hcga : alookup acts "closeGeneralSidebar" = some act)
    (hvp : alookup r.stores "core/viewport" = some stVP)
    (hsel : selAt r.selectors "core/viewport" "isViewportMatch" = some f)
    (htok : ∀ e ∈ r.listeners, ∀ m, e.ref = Sum.inr m → m < r.nextToken)
    (a : JSVal) :
    ∃ r1, editPostModule r opts init = some (r1, Sum.inr r.nextToken) ∧
      stateAt (wiringStep r1 (Sum.inr r.nextToken) a).stores "core/edit-post" =
        some (if f (stVP.reducer stVP.state a) [JSVal.str "< medium"] ≠
                f stVP.state [JSVal.str "< medium"] ∧
              truthy (f (stVP.reducer stVP.state a) [JSVal.str "< medium"]) = true
            then red init (act []) else init) := by
  have hne1 : ("core/viewport" : String) ≠ "core/edit-post" := by decide
  have hne3 : ("core/viewport" : String) ≠ "" := by decide
  have hST : (registerStore r "core/edit-post" opts init).1.stores =
      aset r.stores "core/edit-post" ⟨red, init⟩ := by
    cases hsels : opts.selectors <;>
      simp [registerStore, hred, hacts, hsels, registerReducer,
        registerActions, registerSelectors]
  have hSEL : selAt (registerStore r "core/edit-post" opts init).1.selectors
      "core/viewport" "isViewportMatch" = some f := by
    cases hsels : opts.selectors with
    | none =>
      have h : (registerStore r "core/edit-post" opts init).1.selectors =
          r.selectors := by
        simp [registerStore, hred, hacts, hsels, registerReducer,
          registerActions]
      rw [h]
      exact hsel
    | some s =>
      have h : (registerStore r "core/edit-post" opts init).1.selectors =
          aset r.selectors "core/edit-post" s := by
        simp [registerStore, hred, hacts, hsels, registerReducer,
          registerActions, registerSelectors]
      rw [h, selAt, alookup_aset_ne _ _ _ _ hne1]
      exact hsel
  have hACT : (registerStore r "core/edit-post" opts init).1.actions =
      aset r.actions "core/edit-post" acts := by
    cases hsels : opts.selectors <;>
      simp [registerStore, hred, hacts, hsels, registerReducer,
        registerActions, registerSelectors]
  have hLS : (registerStore r "core/edit-post" opts init).1.listeners =
      r.listeners := by
    cases hsels : opts.selectors <;>
      simp [registerStore, hred, hacts, hsels, registerReducer,
        registerActions, registerSelectors]
  have hTK : (registerStore r "core/edit-post" opts init).1.nextToken =
      r.nextToken := by
    cases hsels : opts.selectors <;>
      simp [registerStore, hred, hacts, hsels, registerReducer,
        registerActions, registerSelectors]
  have hvpS : alookup (registerStore r "core/edit-post" opts init).1.stores
      "core/viewport" = some stVP := by
    rw [hST, alookup_aset_ne _ _ _ _ hne1]
    exact hvp
  have hsub := subscribe_byKeySel_initial
    (registerStore r "core/edit-post" opts init).1 "core/viewport" hne3
    "isViewportMatch" [JSVal.str "< medium"] 0 stVP f hvpS hSEL
  refine ⟨(pushWrapped (registerStore r "core/edit-post" opts init).1
    (.byKeySel "core/viewport" stVP.state "isViewportMatch"
      [JSVal.str "< medium"] (f stVP.state [JSVal.str "< medium"]))).1, ?_, ?_⟩
  · rw [editPostModule, hsub]
    have hsnd : (pushWrapped (registerStore r "core/edit-post" opts init).1
        (.byKeySel "core/viewport" stVP.state "isViewportMatch"
          [JSVal.str "< medium"] (f stVP.state [JSVal.str "< medium"]))).2 =
        Sum.inr r.nextToken := by
      simp [pushWrapped, hTK]
    rw [← hsnd]
  · refine wiringStep_closes_sidebar
      (pushWrapped (registerStore r "core/edit-post" opts init).1
        (.byKeySel "core/viewport" stVP.state "isViewportMatch"
          [JSVal.str "< medium"] (f stVP.state [JSVal.str "< medium"]))).1
      r.nextToken red init acts act stVP f ?_ ?_ ?_ ?_ hcga ?_ ?_ a
    · exact hvpS
    · exact hSEL
    · show alookup (registerStore r "core/edit-post" opts init).1.stores
        "core/edit-post" = some ⟨red, init⟩
      rw [hST]
      exact alookup_aset_self _ _ _
    · show alookup (registerStore r "core/edit-post" opts init).1.actions
        "core/edit-post" = some acts
      rw [hACT]
      exact alookup_aset_self _ _ _
    · show (⟨Sum.inr r.nextToken, .byKeySel "core/viewport" stVP.state
          "isViewportMatch" [JSVal.str "< medium"]
          (f stVP.state [JSVal.str "< medium"])⟩ : LEntry JSVal) ∈
        (registerStore r "core/edit-post" opts init).1.listeners ++
          [⟨Sum.inr (registerStore r "core/edit-post" opts init).1.nextToken,
            .byKeySel "core/viewport" stVP.state "isViewportMatch"
              [JSVal.str "< medium"] (f stVP.state [JSVal.str "< medium"])⟩]
      rw [hTK]
      exact List.mem_append.mpr (Or.inr (List.mem_singleton.mpr rfl))
    · intro e he hre
      have he2 : e ∈ (registerStore r "core/edit-post" opts init).1.listeners ++
          [⟨Sum.inr (registerStore r "core/edit-post" opts init).1.nextToken,
            .byKeySel "core/viewport" stVP.state "isViewportMatch"
              [JSVal.str "< medium"]
              (f stVP.state [JSVal.str "< medium"])⟩] := he
      rcases List.mem_append.mp he2 with h1 | h1
      · rw [hLS] at h1
        exact absurd (htok e h1 r.nextToken hre) (lt_irrefl _)
      · have h3 := List.mem_singleton.mp h1
        rw [h3, hTK]
  
/-- The viewport store's reducer used in the witness: the state is
replaced by the action. -/
def vpReducer : JSVal → JSVal → JSVal := fun _ a => a

/-- The `isViewportMatch` selector used in the witness: returns the
state. -/
def vpSel : RawSelector JSVal := fun s _ => s

/-- The edit-post reducer used in the witness: the state is replaced by
the action. -/
def epRed : JSVal → JSVal → JSVal := fun _ a => a

/-- The `closeGeneralSidebar` action creator used in the witness. -/
def epCloseAct : RawAction JSVal := fun _ => JSVal.str "CLOSE"

/-- A registry holding the `'core/viewport'` store (state `false`) and
its `isViewportMatch` selector. -/
def fixVPReg : Registry JSVal :=
  registerSelectors
    (registerReducer emptyRegistry "core/viewport" vpReducer
      (JSVal.bool false)).1
    "core/viewport" [("isViewportMatch", vpSel)]

/-- The edit-post store options used in the witness. -/
def epOpts : StoreOptions JSVal :=
  ⟨some epRed, some [("closeGeneralSidebar", epCloseAct)], none⟩

/-- Witness for C7 at a concrete instance: the viewport state flips
from `false` to `true` (the selector result changes to truthy), so the
wiring dispatches `closeGeneralSidebar` and the edit-post state becomes
the dispatched action. -/
theorem editPost_wiring_closes_sidebar_witness :
    ∃ r1, editPostModule fixVPReg epOpts (JSVal.str "INIT") =
        some (r1, Sum.inr 0) ∧
      stateAt (wiringStep r1 (Sum.inr 0) (JSVal.bool true)).stores
          "core/edit-post" =
        some (if vpSel (vpReducer (JSVal.bool false) (JSVal.bool true))
                [JSVal.str "< medium"] ≠
              vpSel (JSVal.bool false) [JSVal.str "< medium"] ∧
            truthy (vpSel (vpReducer (JSVal.bool false) (JSVal.bool true))
              [JSVal.str "< medium"]) = true
          then epRed (JSVal.str "INIT") (epCloseAct [])
          else JSVal.str "INIT") :=
  editPost_wiring_closes_sidebar fixVPReg epOpts (JSVal.str "INIT") epRed
    [("closeGeneralSidebar", epCloseAct)] epCloseAct
    ⟨vpReducer, JSVal.bool false⟩ vpSel rfl rfl rfl rfl rfl
    (fun e he => absurd he (List.not_mem_nil e)) (JSVal.bool true)
